import Mathlib

/-!
Shallow embedding of the stripe-rs checkout-session parameter model and its
form-encoding contract (src/resources/checkout_session_ext.rs), together with
proofs of the specification's claims about it.

Conventions of the embedding:
* Rust borrowed strings (the lifetime-parametric fields of the source structs)
  and owned strings are both modelled as Lean String.
* Machine integers carry no arithmetic in this code, only storage and
  stringification, so u64 is modelled as Nat and i64 as Int (every u64 value
  is a Nat, every i64 value is an Int; no overflow can arise because the
  program never computes on these fields).
* A flattened wire key is modelled structurally as a list of path segments
  (WirePath); renderPath turns it into the bracket-qualified string form that the
  form encoder emits on the wire.
-/

/-- Path segment of a flattened wire key: either a field or map-key name, or a
numeric sequence index. -/
inductive Seg
  | name : String → Seg
  | idx : Nat → Seg
deriving DecidableEq

/-- A structured wire key: the list of path segments from the root. -/
abbrev WirePath := List Seg

/-- The flat key-to-value mapping handed to the transport, in emission order. -/
abbrev FlatMap := List (WirePath × String)

/-- Wire rendering of one segment. -/
def renderSeg : Seg → String
  | Seg.name s => s
  | Seg.idx n => toString n

/-- Wire rendering of a structured key in the bracket convention of the remote
API: head segment bare, every further segment bracketed, e.g.
line_items[0][amount]. -/
def renderPath : WirePath → String
  | [] => ""
  | s :: rest => renderSeg s ++ String.join (rest.map (fun t => "[" ++ renderSeg t ++ "]"))

/-- Wire rendering of a whole flat mapping. -/
def renderFlatMap (m : FlatMap) : List (String × String) :=
  m.map (fun e => (renderPath e.1, e.2))

/-- Opaque validated customer identifier (crate::ids::CustomerId).
Modelled from the spec: the ids module is outside the visible sources; the
spec treats IDs as opaque validated string wrappers that this layer only
threads through. -/
structure CustomerId where
  id : String
deriving DecidableEq

/-- Modelled from the spec: Currency is a closed enumeration of three-letter
lowercase ISO codes defined elsewhere in the crate; a representative subset of
variants suffices for this layer, which only turns a variant into its wire
token. -/
inductive Currency
  | usd | eur | gbp | jpy | aud
deriving DecidableEq

/-- Wire token of a currency (its lowercase ISO code). -/
def Currency.wire : Currency → String
  | Currency.usd => "usd"
  | Currency.eur => "eur"
  | Currency.gbp => "gbp"
  | Currency.jpy => "jpy"
  | Currency.aud => "aud"

/-- Modelled from the spec: CheckoutSessionLocale is a closed enumeration of
IETF language tags (with an auto variant) defined elsewhere in the crate; a
representative subset of variants suffices for this layer. -/
inductive CheckoutSessionLocale
  | auto | de | en | es | fr | it
deriving DecidableEq

/-- Wire token of a locale. -/
def CheckoutSessionLocale.wire : CheckoutSessionLocale → String
  | CheckoutSessionLocale.auto => "auto"
  | CheckoutSessionLocale.de => "de"
  | CheckoutSessionLocale.en => "en"
  | CheckoutSessionLocale.es => "es"
  | CheckoutSessionLocale.fr => "fr"
  | CheckoutSessionLocale.it => "it"

/-- Mode of the Checkout Session. The source's doc comment fixes the closed
set: one of payment, setup, or subscription (the enum itself is defined
elsewhere in the crate). -/
inductive CheckoutSessionMode
  | payment | setup | subscription
deriving DecidableEq

/-- Wire token of a session mode. -/
def CheckoutSessionMode.wire : CheckoutSessionMode → String
  | CheckoutSessionMode.payment => "payment"
  | CheckoutSessionMode.setup => "setup"
  | CheckoutSessionMode.subscription => "subscription"

/-- Submit type of the session. The source's doc comment fixes the closed set:
auto, book, donate, or pay (the enum itself is defined elsewhere in the
crate). -/
inductive CheckoutSessionSubmitType
  | auto | book | donate | pay
deriving DecidableEq

/-- Wire token of a submit type. -/
def CheckoutSessionSubmitType.wire : CheckoutSessionSubmitType → String
  | CheckoutSessionSubmitType.auto => "auto"
  | CheckoutSessionSubmitType.book => "book"
  | CheckoutSessionSubmitType.donate => "donate"
  | CheckoutSessionSubmitType.pay => "pay"

/-- CheckoutSessionLineItem from the source: amount is i64, quantity is u64,
description and images are optional (serde skips them when None). -/
structure CheckoutSessionLineItem where
  amount : Int
  currency : Currency
  name : String
  quantity : Nat
  description : Option String
  images : Option (List String)
deriving DecidableEq

/-- CheckoutTransferData from the source: mandatory destination, optional u64
amount (serde skips it when None). -/
structure CheckoutTransferData where
  destination : String
  amount : Option Nat
deriving DecidableEq

/-- CheckoutPaymentIntentData from the source. Every field carries the serde
skip-when-None attribute. The metadata HashMap is embedded as its iteration
sequence, a list of key-value pairs (the map type makes keys unique; iteration
order is an artifact of the map, which the order-independence theorem below
quantifies over). -/
structure CheckoutPaymentIntentData where
  application_fee_amount : Option Nat
  description : Option String
  metadata : Option (List (String × String))
  on_behalf_of : Option String
  receipt_email : Option String
  statement_descriptor : Option String
  statement_descriptor_suffix : Option String
  transfer_data : Option CheckoutTransferData
  transfer_group : Option String
deriving DecidableEq

/-- CreateCheckoutSession from the source: cancel_url, payment_method_types
and success_url are mandatory; every other field is an Option carrying the
serde skip-when-None attribute. All fields are public and the struct has no
constructor function, so any combination of field values is constructible. -/
structure CreateCheckoutSession where
  cancel_url : String
  payment_method_types : List String
  success_url : String
  client_reference_id : Option String
  customer : Option CustomerId
  customer_email : Option String
  billing_address_collection : Option String
  line_items : Option (List CheckoutSessionLineItem)
  locale : Option CheckoutSessionLocale
  mode : Option CheckoutSessionMode
  payment_intent_data : Option CheckoutPaymentIntentData
  submit_type : Option CheckoutSessionSubmitType
deriving DecidableEq

/-!
The flatten combinators. The encoder itself (serde_qs form flattening inside
Client::post_form) is outside the visible sources; it is modelled from the
spec's wire-encoder rules (section 4.2): a mandatory scalar always contributes
one entry; an unset optional contributes nothing (this part is also written
into the source as the skip-when-None serde attributes); a present nested
struct is encoded recursively under the parent key; a sequence is encoded
element by element under numeric indices starting at 0, in input order.
-/

/-- Mandatory scalar field: always one entry. -/
def reqField (pre : WirePath) (n : String) (v : String) : FlatMap :=
  [(pre ++ [Seg.name n], v)]

/-- Optional scalar field: no entry when unset, one entry when set. -/
def optField (pre : WirePath) (n : String) : Option String → FlatMap
  | none => []
  | some v => [(pre ++ [Seg.name n], v)]

/-- Sequence of scalar values, encoded at increasing indices from i. -/
def seqScalarAux (pre : WirePath) (n : String) (i : Nat) : List String → FlatMap
  | [] => []
  | v :: vs => (pre ++ [Seg.name n, Seg.idx i], v) :: seqScalarAux pre n (i + 1) vs

/-- Sequence of scalar values under field n, indices starting at 0. -/
def seqScalar (pre : WirePath) (n : String) (l : List String) : FlatMap :=
  seqScalarAux pre n 0 l

/-- Sequence of nested values, each encoded by enc at increasing indices. -/
def seqNestedAux (pre : WirePath) (n : String) (enc : WirePath → α → FlatMap) (i : Nat) :
    List α → FlatMap
  | [] => []
  | x :: xs => enc (pre ++ [Seg.name n, Seg.idx i]) x ++ seqNestedAux pre n enc (i + 1) xs

/-- Sequence of nested values under field n, indices starting at 0. -/
def seqNested (pre : WirePath) (n : String) (enc : WirePath → α → FlatMap) (l : List α) : FlatMap :=
  seqNestedAux pre n enc 0 l

/-- Optional nested struct: nothing when unset, recursive encoding when set. -/
def optNested (pre : WirePath) (n : String) (enc : WirePath → α → FlatMap) :
    Option α → FlatMap
  | none => []
  | some v => enc (pre ++ [Seg.name n]) v

/-- Optional sequence of scalars: nothing when unset. -/
def optSeqScalar (pre : WirePath) (n : String) : Option (List String) → FlatMap
  | none => []
  | some l => seqScalar pre n l

/-- Optional sequence of nested values: nothing when unset. -/
def optSeqNested (pre : WirePath) (n : String) (enc : WirePath → α → FlatMap) :
    Option (List α) → FlatMap
  | none => []
  | some l => seqNested pre n enc l

/-- Free-form metadata mapping: each entry keyed by the user-supplied string
key verbatim, under the field's path. -/
def encodeMetadata (pre : WirePath) (l : List (String × String)) : FlatMap :=
  l.map (fun e => (pre ++ [Seg.name e.1], e.2))

/-- Encoding of CheckoutTransferData, fields in declaration order. -/
def encodeCheckoutTransferData (pre : WirePath) (t : CheckoutTransferData) : FlatMap :=
  reqField pre "destination" t.destination ++
  optField pre "amount" (t.amount.map toString)

/-- Encoding of CheckoutPaymentIntentData, fields in declaration order. -/
def encodeCheckoutPaymentIntentData (pre : WirePath) (d : CheckoutPaymentIntentData) : FlatMap :=
  optField pre "application_fee_amount" (d.application_fee_amount.map toString) ++
  optField pre "description" d.description ++
  optNested pre "metadata" encodeMetadata d.metadata ++
  optField pre "on_behalf_of" d.on_behalf_of ++
  optField pre "receipt_email" d.receipt_email ++
  optField pre "statement_descriptor" d.statement_descriptor ++
  optField pre "statement_descriptor_suffix" d.statement_descriptor_suffix ++
  optNested pre "transfer_data" encodeCheckoutTransferData d.transfer_data ++
  optField pre "transfer_group" d.transfer_group

/-- Encoding of CheckoutSessionLineItem, fields in declaration order. -/
def encodeCheckoutSessionLineItem (pre : WirePath) (li : CheckoutSessionLineItem) : FlatMap :=
  reqField pre "amount" (toString li.amount) ++
  reqField pre "currency" li.currency.wire ++
  reqField pre "name" li.name ++
  reqField pre "quantity" (toString li.quantity) ++
  optField pre "description" li.description ++
  optSeqScalar pre "images" li.images

/-- Encoding of the whole CreateCheckoutSession parameter value into the flat
mapping, fields in declaration order. -/
def encodeCreateCheckoutSession (s : CreateCheckoutSession) : FlatMap :=
  reqField [] "cancel_url" s.cancel_url ++
  seqScalar [] "payment_method_types" s.payment_method_types ++
  reqField [] "success_url" s.success_url ++
  optField [] "client_reference_id" s.client_reference_id ++
  optField [] "customer" (s.customer.map CustomerId.id) ++
  optField [] "customer_email" s.customer_email ++
  optField [] "billing_address_collection" s.billing_address_collection ++
  optSeqNested [] "line_items" encodeCheckoutSessionLineItem s.line_items ++
  optField [] "locale" (s.locale.map CheckoutSessionLocale.wire) ++
  optField [] "mode" (s.mode.map CheckoutSessionMode.wire) ++
  optNested [] "payment_intent_data" encodeCheckoutPaymentIntentData s.payment_intent_data ++
  optField [] "submit_type" (s.submit_type.map CheckoutSessionSubmitType.wire)

/-!
Membership lemmas for the flatten combinators: they characterize exactly which
entries each combinator contributes.
-/

theorem mem_reqField {pre : WirePath} {n v : String} {e : WirePath × String} :
    e ∈ reqField pre n v ↔ e = (pre ++ [Seg.name n], v) := by
  simp [reqField]

theorem mem_optField {pre : WirePath} {n : String} {o : Option String}
    {e : WirePath × String} :
    e ∈ optField pre n o ↔ ∃ v, o = some v ∧ e = (pre ++ [Seg.name n], v) := by
  cases o <;> simp [optField]

theorem mem_optNested {pre : WirePath} {n : String} {enc : WirePath → α → FlatMap}
    {o : Option α} {e : WirePath × String} :
    e ∈ optNested pre n enc o ↔ ∃ v, o = some v ∧ e ∈ enc (pre ++ [Seg.name n]) v := by
  cases o <;> simp [optNested]

theorem mem_encodeMetadata {pre : WirePath} {l : List (String × String)}
    {e : WirePath × String} :
    e ∈ encodeMetadata pre l ↔ ∃ kv, kv ∈ l ∧ e = (pre ++ [Seg.name kv.1], kv.2) := by
  simp only [encodeMetadata, List.mem_map]
  constructor
  · rintro ⟨⟨k, v⟩, hkv, rfl⟩
    exact ⟨⟨k, v⟩, hkv, rfl⟩
  · rintro ⟨⟨k, v⟩, hkv, rfl⟩
    exact ⟨⟨k, v⟩, hkv, rfl⟩

theorem mem_seqScalarAux {pre : WirePath} {n : String} {e : WirePath × String} :
    ∀ {l : List String} {i : Nat}, e ∈ seqScalarAux pre n i l ↔
      ∃ j, ∃ h : j < l.length, e = (pre ++ [Seg.name n, Seg.idx (i + j)], l.get ⟨j, h⟩) := by
  intro l
  induction l with
  | nil => intro i; simp [seqScalarAux]
  | cons v vs ih =>
    intro i
    simp only [seqScalarAux, List.mem_cons, ih]
    constructor
    · rintro (he | ⟨j, hj, he⟩)
      · exact ⟨0, by simp, by simpa using he⟩
      · exact ⟨j + 1, by simp only [List.length_cons]; omega, by simpa [List.get_cons_succ, Nat.add_assoc, Nat.add_comm 1] using he⟩
    · rintro ⟨j, hj, he⟩
      cases j with
      | zero => exact Or.inl (by simpa using he)
      | succ j =>
        exact Or.inr ⟨j, by simp only [List.length_cons] at hj; omega, by simpa [List.get_cons_succ, Nat.add_assoc, Nat.add_comm 1] using he⟩

theorem mem_seqNestedAux {pre : WirePath} {n : String} {enc : WirePath → α → FlatMap}
    {e : WirePath × String} :
    ∀ {l : List α} {i : Nat}, e ∈ seqNestedAux pre n enc i l ↔
      ∃ j, ∃ h : j < l.length, e ∈ enc (pre ++ [Seg.name n, Seg.idx (i + j)]) (l.get ⟨j, h⟩) := by
  intro l
  induction l with
  | nil => intro i; simp [seqNestedAux]
  | cons x xs ih =>
    intro i
    simp only [seqNestedAux, List.mem_append, ih]
    constructor
    · rintro (he | ⟨j, hj, he⟩)
      · exact ⟨0, by simp, by simpa using he⟩
      · exact ⟨j + 1, by simp only [List.length_cons]; omega, by simpa [List.get_cons_succ, Nat.add_assoc, Nat.add_comm 1] using he⟩
    · rintro ⟨j, hj, he⟩
      cases j with
      | zero => exact Or.inl (by simpa using he)
      | succ j =>
        exact Or.inr ⟨j, by simp only [List.length_cons] at hj; omega, by simpa [List.get_cons_succ, Nat.add_assoc, Nat.add_comm 1] using he⟩

theorem mem_seqNested {pre : WirePath} {n : String} {enc : WirePath → α → FlatMap}
    {l : List α} {e : WirePath × String} :
    e ∈ seqNested pre n enc l ↔
      ∃ j, ∃ h : j < l.length, e ∈ enc (pre ++ [Seg.name n, Seg.idx j]) (l.get ⟨j, h⟩) := by
  unfold seqNested
  rw [mem_seqNestedAux]
  simp

/-- Boolean prefix test on structured keys. -/
def isPre : WirePath → WirePath → Bool
  | [], _ => true
  | _ :: _, [] => false
  | a :: as, b :: bs => decide (a = b) && isPre as bs

theorem isPre_iff : ∀ {p q : WirePath}, isPre p q = true ↔ p <+: q
  | [], q => by simp [isPre]
  | a :: as, [] => by simp [isPre]
  | a :: as, b :: bs => by
    simp [isPre, List.cons_prefix_cons, isPre_iff (p := as) (q := bs)]

/-!
Shape lemmas: every entry a struct encoder emits has a key that extends the
encoder's prefix with the field's own wire name, and an optional field can
only contribute when it is set.
-/

theorem shape_encodeCheckoutTransferData {pre : WirePath} {t : CheckoutTransferData}
    {e : WirePath × String} (he : e ∈ encodeCheckoutTransferData pre t) :
    e.1 = pre ++ [Seg.name "destination"] ∨
      ((∃ a, t.amount = some a) ∧ e.1 = pre ++ [Seg.name "amount"]) := by
  simp only [encodeCheckoutTransferData, List.mem_append, mem_reqField, mem_optField] at he
  rcases he with rfl | ⟨v, hv, rfl⟩
  · exact Or.inl rfl
  · rcases Option.map_eq_some'.mp hv with ⟨a, ha, _⟩
    exact Or.inr ⟨⟨a, ha⟩, rfl⟩

theorem shape_encodeCheckoutSessionLineItem {pre : WirePath} {li : CheckoutSessionLineItem}
    {e : WirePath × String} (he : e ∈ encodeCheckoutSessionLineItem pre li) :
    e.1 = pre ++ [Seg.name "amount"] ∨ e.1 = pre ++ [Seg.name "currency"] ∨
    e.1 = pre ++ [Seg.name "name"] ∨ e.1 = pre ++ [Seg.name "quantity"] ∨
    ((∃ v, li.description = some v) ∧ e.1 = pre ++ [Seg.name "description"]) ∨
    (∃ imgs, li.images = some imgs ∧ imgs ≠ [] ∧
      ∃ k, e.1 = pre ++ [Seg.name "images", Seg.idx k]) := by
  simp only [encodeCheckoutSessionLineItem, List.mem_append, or_assoc, mem_reqField,
    mem_optField] at he
  rcases he with rfl | rfl | rfl | rfl | ⟨v, hv, rfl⟩ | him
  · exact Or.inl rfl
  · exact Or.inr (Or.inl rfl)
  · exact Or.inr (Or.inr (Or.inl rfl))
  · exact Or.inr (Or.inr (Or.inr (Or.inl rfl)))
  · exact Or.inr (Or.inr (Or.inr (Or.inr (Or.inl ⟨⟨v, hv⟩, rfl⟩))))
  · cases himgs : li.images with
    | none => rw [himgs] at him; simp [optSeqScalar] at him
    | some imgs =>
      rw [himgs] at him
      simp only [optSeqScalar, seqScalar] at him
      rcases mem_seqScalarAux.mp him with ⟨j, hj, rfl⟩
      refine Or.inr (Or.inr (Or.inr (Or.inr (Or.inr ⟨imgs, rfl, ?_, j, by simp⟩))))
      intro h
      subst h
      simp at hj

theorem shape_encodeCheckoutPaymentIntentData {pre : WirePath}
    {d : CheckoutPaymentIntentData} {e : WirePath × String}
    (he : e ∈ encodeCheckoutPaymentIntentData pre d) :
    ((∃ a, d.application_fee_amount = some a) ∧
        e.1 = pre ++ [Seg.name "application_fee_amount"]) ∨
    ((∃ v, d.description = some v) ∧ e.1 = pre ++ [Seg.name "description"]) ∨
    (∃ l, d.metadata = some l ∧ ∃ k, e.1 = pre ++ [Seg.name "metadata", Seg.name k]) ∨
    ((∃ v, d.on_behalf_of = some v) ∧ e.1 = pre ++ [Seg.name "on_behalf_of"]) ∨
    ((∃ v, d.receipt_email = some v) ∧ e.1 = pre ++ [Seg.name "receipt_email"]) ∨
    ((∃ v, d.statement_descriptor = some v) ∧
        e.1 = pre ++ [Seg.name "statement_descriptor"]) ∨
    ((∃ v, d.statement_descriptor_suffix = some v) ∧
        e.1 = pre ++ [Seg.name "statement_descriptor_suffix"]) ∨
    (∃ t, d.transfer_data = some t ∧
        e ∈ encodeCheckoutTransferData (pre ++ [Seg.name "transfer_data"]) t) ∨
    ((∃ v, d.transfer_group = some v) ∧ e.1 = pre ++ [Seg.name "transfer_group"]) := by
  simp only [encodeCheckoutPaymentIntentData, List.mem_append, or_assoc, mem_optField,
    mem_optNested, mem_encodeMetadata] at he
  rcases he with ⟨v, hv, rfl⟩ | ⟨v, hv, rfl⟩ | ⟨l, hl, hm⟩ | ⟨v, hv, rfl⟩ | ⟨v, hv, rfl⟩ |
    ⟨v, hv, rfl⟩ | ⟨v, hv, rfl⟩ | ⟨t, ht, hm⟩ | ⟨v, hv, rfl⟩
  · rcases Option.map_eq_some'.mp hv with ⟨a, ha, _⟩
    exact Or.inl ⟨⟨a, ha⟩, rfl⟩
  · exact Or.inr (Or.inl ⟨⟨v, hv⟩, rfl⟩)
  · rcases hm with ⟨⟨k, v⟩, hkv, rfl⟩
    exact Or.inr (Or.inr (Or.inl ⟨l, hl, k, by simp⟩))
  · exact Or.inr (Or.inr (Or.inr (Or.inl ⟨⟨v, hv⟩, rfl⟩)))
  · exact Or.inr (Or.inr (Or.inr (Or.inr (Or.inl ⟨⟨v, hv⟩, rfl⟩))))
  · exact Or.inr (Or.inr (Or.inr (Or.inr (Or.inr (Or.inl ⟨⟨v, hv⟩, rfl⟩)))))
  · exact Or.inr (Or.inr (Or.inr (Or.inr (Or.inr (Or.inr (Or.inl ⟨⟨v, hv⟩, rfl⟩))))))
  · exact Or.inr (Or.inr (Or.inr (Or.inr (Or.inr (Or.inr (Or.inr (Or.inl ⟨t, ht, hm⟩)))))))
  · exact Or.inr (Or.inr (Or.inr (Or.inr (Or.inr (Or.inr (Or.inr (Or.inr ⟨⟨v, hv⟩, rfl⟩)))))))

theorem shape_encodeCreateCheckoutSession {s : CreateCheckoutSession}
    {e : WirePath × String} (he : e ∈ encodeCreateCheckoutSession s) :
    e.1 = [Seg.name "cancel_url"] ∨
    (s.payment_method_types ≠ [] ∧ ∃ k, e.1 = [Seg.name "payment_method_types", Seg.idx k]) ∨
    e.1 = [Seg.name "success_url"] ∨
    ((∃ v, s.client_reference_id = some v) ∧ e.1 = [Seg.name "client_reference_id"]) ∨
    ((∃ v, s.customer = some v) ∧ e.1 = [Seg.name "customer"]) ∨
    ((∃ v, s.customer_email = some v) ∧ e.1 = [Seg.name "customer_email"]) ∨
    ((∃ v, s.billing_address_collection = some v) ∧
        e.1 = [Seg.name "billing_address_collection"]) ∨
    (∃ items, s.line_items = some items ∧ ∃ j, ∃ h : j < items.length,
        e ∈ encodeCheckoutSessionLineItem [Seg.name "line_items", Seg.idx j]
          (items.get ⟨j, h⟩)) ∨
    ((∃ v, s.locale = some v) ∧ e.1 = [Seg.name "locale"]) ∨
    ((∃ v, s.mode = some v) ∧ e.1 = [Seg.name "mode"]) ∨
    (∃ d, s.payment_intent_data = some d ∧
        e ∈ encodeCheckoutPaymentIntentData [Seg.name "payment_intent_data"] d) ∨
    ((∃ v, s.submit_type = some v) ∧ e.1 = [Seg.name "submit_type"]) := by
  simp only [encodeCreateCheckoutSession, List.mem_append, or_assoc, mem_reqField,
    mem_optField] at he
  rcases he with rfl | hpmt | rfl | ⟨v, hv, rfl⟩ | ⟨v, hv, rfl⟩ | ⟨v, hv, rfl⟩ |
    ⟨v, hv, rfl⟩ | hli | ⟨v, hv, rfl⟩ | ⟨v, hv, rfl⟩ | hpid | ⟨v, hv, rfl⟩
  · exact Or.inl rfl
  · refine Or.inr (Or.inl ?_)
    simp only [seqScalar] at hpmt
    rcases mem_seqScalarAux.mp hpmt with ⟨j, hj, rfl⟩
    refine ⟨?_, j, by simp⟩
    intro h
    rw [h] at hj
    simp at hj
  · exact Or.inr (Or.inr (Or.inl rfl))
  · exact Or.inr (Or.inr (Or.inr (Or.inl ⟨⟨v, hv⟩, rfl⟩)))
  · rcases Option.map_eq_some'.mp hv with ⟨c, hc, _⟩
    exact Or.inr (Or.inr (Or.inr (Or.inr (Or.inl ⟨⟨c, hc⟩, rfl⟩))))
  · exact Or.inr (Or.inr (Or.inr (Or.inr (Or.inr (Or.inl ⟨⟨v, hv⟩, rfl⟩)))))
  · exact Or.inr (Or.inr (Or.inr (Or.inr (Or.inr (Or.inr (Or.inl ⟨⟨v, hv⟩, rfl⟩))))))
  · refine Or.inr (Or.inr (Or.inr (Or.inr (Or.inr (Or.inr (Or.inr (Or.inl ?_)))))))
    cases hval : s.line_items with
    | none => rw [hval] at hli; simp [optSeqNested] at hli
    | some items =>
      rw [hval] at hli
      simp only [optSeqNested] at hli
      rcases mem_seqNested.mp hli with ⟨j, hj, hmem⟩
      exact ⟨items, rfl, j, hj, by simpa using hmem⟩
  · rcases Option.map_eq_some'.mp hv with ⟨c, hc, _⟩
    exact Or.inr (Or.inr (Or.inr (Or.inr (Or.inr (Or.inr (Or.inr (Or.inr
      (Or.inl ⟨⟨c, hc⟩, rfl⟩))))))))
  · rcases Option.map_eq_some'.mp hv with ⟨c, hc, _⟩
    exact Or.inr (Or.inr (Or.inr (Or.inr (Or.inr (Or.inr (Or.inr (Or.inr (Or.inr
      (Or.inl ⟨⟨c, hc⟩, rfl⟩)))))))))
  · rcases mem_optNested.mp hpid with ⟨d, hd, hmem⟩
    exact Or.inr (Or.inr (Or.inr (Or.inr (Or.inr (Or.inr (Or.inr (Or.inr (Or.inr
      (Or.inr (Or.inl ⟨d, hd, by simpa using hmem⟩))))))))))
  · rcases Option.map_eq_some'.mp hv with ⟨c, hc, _⟩
    exact Or.inr (Or.inr (Or.inr (Or.inr (Or.inr (Or.inr (Or.inr (Or.inr (Or.inr
      (Or.inr (Or.inr ⟨⟨c, hc⟩, rfl⟩))))))))))

/-- The flat mapping m contains a key for the field at structured path p:
some emitted entry's key has p as a prefix. -/
def hasKeyAt (m : FlatMap) (p : WirePath) : Prop :=
  ∃ e ∈ m, p <+: e.1

theorem keyExt_encodeCheckoutTransferData {pre : WirePath} {t : CheckoutTransferData}
    {e : WirePath × String} (he : e ∈ encodeCheckoutTransferData pre t) :
    ∃ tl, e.1 = pre ++ tl := by
  rcases shape_encodeCheckoutTransferData he with h | ⟨_, h⟩ <;> exact ⟨_, h⟩

theorem keyExt_encodeCheckoutSessionLineItem {pre : WirePath}
    {li : CheckoutSessionLineItem} {e : WirePath × String}
    (he : e ∈ encodeCheckoutSessionLineItem pre li) :
    ∃ tl, e.1 = pre ++ tl := by
  rcases shape_encodeCheckoutSessionLineItem he with
    h | h | h | h | ⟨_, h⟩ | ⟨_, _, _, _, h⟩ <;> exact ⟨_, h⟩

theorem keyExt_encodeCheckoutPaymentIntentData {pre : WirePath}
    {d : CheckoutPaymentIntentData} {e : WirePath × String}
    (he : e ∈ encodeCheckoutPaymentIntentData pre d) :
    ∃ tl, e.1 = pre ++ tl := by
  rcases shape_encodeCheckoutPaymentIntentData he with
    ⟨_, h⟩ | ⟨_, h⟩ | ⟨_, _, _, h⟩ | ⟨_, h⟩ | ⟨_, h⟩ | ⟨_, h⟩ | ⟨_, h⟩ | ⟨t, ht, hm⟩ | ⟨_, h⟩
  · exact ⟨_, h⟩
  · exact ⟨_, h⟩
  · exact ⟨_, h⟩
  · exact ⟨_, h⟩
  · exact ⟨_, h⟩
  · exact ⟨_, h⟩
  · exact ⟨_, h⟩
  · rcases keyExt_encodeCheckoutTransferData hm with ⟨tl, h⟩
    exact ⟨[Seg.name "transfer_data"] ++ tl, by rw [h, List.append_assoc]⟩
  · exact ⟨_, h⟩

/-!
Origin lemmas: when the mapping holds a key whose path begins with a field
name at a given nesting level, that field is among the encoder's fields and,
if optional, it was set.
-/

theorem td_origin {pre : WirePath} {t : CheckoutTransferData} {f : String}
    {rest : WirePath} {e : WirePath × String} (he : e ∈ encodeCheckoutTransferData pre t)
    (hpre : pre ++ (Seg.name f :: rest) <+: e.1) :
    f = "destination" ∨ (t.amount ≠ none ∧ f = "amount") := by
  rcases shape_encodeCheckoutTransferData he with h | ⟨⟨a, ha⟩, h⟩
  · rw [h, List.prefix_append_right_inj] at hpre
    simp only [List.cons_prefix_cons, Seg.name.injEq] at hpre
    exact Or.inl hpre.1
  · rw [h, List.prefix_append_right_inj] at hpre
    simp only [List.cons_prefix_cons, Seg.name.injEq] at hpre
    exact Or.inr ⟨by simp [ha], hpre.1⟩

theorem li_origin {pre : WirePath} {li : CheckoutSessionLineItem} {f : String}
    {rest : WirePath} {e : WirePath × String}
    (he : e ∈ encodeCheckoutSessionLineItem pre li)
    (hpre : pre ++ (Seg.name f :: rest) <+: e.1) :
    f = "amount" ∨ f = "currency" ∨ f = "name" ∨ f = "quantity" ∨
      (li.description ≠ none ∧ f = "description") ∨
      ((∃ imgs, li.images = some imgs ∧ imgs ≠ []) ∧ f = "images") := by
  rcases shape_encodeCheckoutSessionLineItem he with
    h | h | h | h | ⟨⟨v, hv⟩, h⟩ | ⟨imgs, himg, hne, k, h⟩ <;>
    rw [h, List.prefix_append_right_inj] at hpre <;>
    simp only [List.cons_prefix_cons, Seg.name.injEq] at hpre
  · exact Or.inl hpre.1
  · exact Or.inr (Or.inl hpre.1)
  · exact Or.inr (Or.inr (Or.inl hpre.1))
  · exact Or.inr (Or.inr (Or.inr (Or.inl hpre.1)))
  · exact Or.inr (Or.inr (Or.inr (Or.inr (Or.inl ⟨by simp [hv], hpre.1⟩))))
  · exact Or.inr (Or.inr (Or.inr (Or.inr (Or.inr ⟨⟨imgs, himg, hne⟩, hpre.1⟩))))

theorem pid_origin {pre : WirePath} {d : CheckoutPaymentIntentData} {f : String}
    {rest : WirePath} {e : WirePath × String}
    (he : e ∈ encodeCheckoutPaymentIntentData pre d)
    (hpre : pre ++ (Seg.name f :: rest) <+: e.1) :
    (d.application_fee_amount ≠ none ∧ f = "application_fee_amount") ∨
    (d.description ≠ none ∧ f = "description") ∨
    (d.metadata ≠ none ∧ f = "metadata") ∨
    (d.on_behalf_of ≠ none ∧ f = "on_behalf_of") ∨
    (d.receipt_email ≠ none ∧ f = "receipt_email") ∨
    (d.statement_descriptor ≠ none ∧ f = "statement_descriptor") ∨
    (d.statement_descriptor_suffix ≠ none ∧ f = "statement_descriptor_suffix") ∨
    (d.transfer_data ≠ none ∧ f = "transfer_data") ∨
    (d.transfer_group ≠ none ∧ f = "transfer_group") := by
  rcases shape_encodeCheckoutPaymentIntentData he with
    ⟨⟨a, ha⟩, h⟩ | ⟨⟨v, hv⟩, h⟩ | ⟨l, hl, k, h⟩ | ⟨⟨v, hv⟩, h⟩ | ⟨⟨v, hv⟩, h⟩ |
    ⟨⟨v, hv⟩, h⟩ | ⟨⟨v, hv⟩, h⟩ | ⟨t, ht, hm⟩ | ⟨⟨v, hv⟩, h⟩
  · rw [h, List.prefix_append_right_inj] at hpre
    simp only [List.cons_prefix_cons, Seg.name.injEq] at hpre
    exact Or.inl ⟨by simp [ha], hpre.1⟩
  · rw [h, List.prefix_append_right_inj] at hpre
    simp only [List.cons_prefix_cons, Seg.name.injEq] at hpre
    exact Or.inr (Or.inl ⟨by simp [hv], hpre.1⟩)
  · rw [h, List.prefix_append_right_inj] at hpre
    simp only [List.cons_prefix_cons, Seg.name.injEq] at hpre
    exact Or.inr (Or.inr (Or.inl ⟨by simp [hl], hpre.1⟩))
  · rw [h, List.prefix_append_right_inj] at hpre
    simp only [List.cons_prefix_cons, Seg.name.injEq] at hpre
    exact Or.inr (Or.inr (Or.inr (Or.inl ⟨by simp [hv], hpre.1⟩)))
  · rw [h, List.prefix_append_right_inj] at hpre
    simp only [List.cons_prefix_cons, Seg.name.injEq] at hpre
    exact Or.inr (Or.inr (Or.inr (Or.inr (Or.inl ⟨by simp [hv], hpre.1⟩))))
  · rw [h, List.prefix_append_right_inj] at hpre
    simp only [List.cons_prefix_cons, Seg.name.injEq] at hpre
    exact Or.inr (Or.inr (Or.inr (Or.inr (Or.inr (Or.inl ⟨by simp [hv], hpre.1⟩)))))
  · rw [h, List.prefix_append_right_inj] at hpre
    simp only [List.cons_prefix_cons, Seg.name.injEq] at hpre
    exact Or.inr (Or.inr (Or.inr (Or.inr (Or.inr (Or.inr (Or.inl ⟨by simp [hv], hpre.1⟩))))))
  · rcases keyExt_encodeCheckoutTransferData hm with ⟨tl, h⟩
    rw [h, List.append_assoc, List.prefix_append_right_inj] at hpre
    simp only [List.singleton_append, List.cons_prefix_cons, Seg.name.injEq] at hpre
    exact Or.inr (Or.inr (Or.inr (Or.inr (Or.inr (Or.inr (Or.inr
      (Or.inl ⟨by simp [ht], hpre.1⟩)))))))
  · rw [h, List.prefix_append_right_inj] at hpre
    simp only [List.cons_prefix_cons, Seg.name.injEq] at hpre
    exact Or.inr (Or.inr (Or.inr (Or.inr (Or.inr (Or.inr (Or.inr
      (Or.inr ⟨by simp [hv], hpre.1⟩)))))))

theorem session_origin {s : CreateCheckoutSession} {f : String} {rest : WirePath}
    (hk : hasKeyAt (encodeCreateCheckoutSession s) (Seg.name f :: rest)) :
    f = "cancel_url" ∨
    (s.payment_method_types ≠ [] ∧ f = "payment_method_types") ∨
    f = "success_url" ∨
    (s.client_reference_id ≠ none ∧ f = "client_reference_id") ∨
    (s.customer ≠ none ∧ f = "customer") ∨
    (s.customer_email ≠ none ∧ f = "customer_email") ∨
    (s.billing_address_collection ≠ none ∧ f = "billing_address_collection") ∨
    ((∃ items, s.line_items = some items ∧ items ≠ []) ∧ f = "line_items") ∨
    (s.locale ≠ none ∧ f = "locale") ∨
    (s.mode ≠ none ∧ f = "mode") ∨
    (s.payment_intent_data ≠ none ∧ f = "payment_intent_data") ∨
    (s.submit_type ≠ none ∧ f = "submit_type") := by
  rcases hk with ⟨e, he, hpre⟩
  rcases shape_encodeCreateCheckoutSession he with
    h | ⟨hne, k, h⟩ | h | ⟨⟨v, hv⟩, h⟩ | ⟨⟨v, hv⟩, h⟩ | ⟨⟨v, hv⟩, h⟩ | ⟨⟨v, hv⟩, h⟩ |
    ⟨items, hitems, j, hj, hmem⟩ | ⟨⟨v, hv⟩, h⟩ | ⟨⟨v, hv⟩, h⟩ | ⟨d, hd, hmem⟩ |
    ⟨⟨v, hv⟩, h⟩
  · rw [h] at hpre
    simp only [List.cons_prefix_cons, Seg.name.injEq] at hpre
    exact Or.inl hpre.1
  · rw [h] at hpre
    simp only [List.cons_prefix_cons, Seg.name.injEq] at hpre
    exact Or.inr (Or.inl ⟨hne, hpre.1⟩)
  · rw [h] at hpre
    simp only [List.cons_prefix_cons, Seg.name.injEq] at hpre
    exact Or.inr (Or.inr (Or.inl hpre.1))
  · rw [h] at hpre
    simp only [List.cons_prefix_cons, Seg.name.injEq] at hpre
    exact Or.inr (Or.inr (Or.inr (Or.inl ⟨by simp [hv], hpre.1⟩)))
  · rw [h] at hpre
    simp only [List.cons_prefix_cons, Seg.name.injEq] at hpre
    exact Or.inr (Or.inr (Or.inr (Or.inr (Or.inl ⟨by simp [hv], hpre.1⟩))))
  · rw [h] at hpre
    simp only [List.cons_prefix_cons, Seg.name.injEq] at hpre
    exact Or.inr (Or.inr (Or.inr (Or.inr (Or.inr (Or.inl ⟨by simp [hv], hpre.1⟩)))))
  · rw [h] at hpre
    simp only [List.cons_prefix_cons, Seg.name.injEq] at hpre
    exact Or.inr (Or.inr (Or.inr (Or.inr (Or.inr (Or.inr (Or.inl ⟨by simp [hv], hpre.1⟩))))))
  · rcases keyExt_encodeCheckoutSessionLineItem hmem with ⟨tl, h⟩
    rw [h] at hpre
    simp only [List.cons_append, List.cons_prefix_cons, Seg.name.injEq] at hpre
    refine Or.inr (Or.inr (Or.inr (Or.inr (Or.inr (Or.inr (Or.inr
      (Or.inl ⟨⟨items, hitems, ?_⟩, hpre.1⟩)))))))
    intro hnil
    rw [hnil] at hj
    simp at hj
  · rw [h] at hpre
    simp only [List.cons_prefix_cons, Seg.name.injEq] at hpre
    exact Or.inr (Or.inr (Or.inr (Or.inr (Or.inr (Or.inr (Or.inr (Or.inr
      (Or.inl ⟨by simp [hv], hpre.1⟩))))))))
  · rw [h] at hpre
    simp only [List.cons_prefix_cons, Seg.name.injEq] at hpre
    exact Or.inr (Or.inr (Or.inr (Or.inr (Or.inr (Or.inr (Or.inr (Or.inr (Or.inr
      (Or.inl ⟨by simp [hv], hpre.1⟩)))))))))
  · rcases keyExt_encodeCheckoutPaymentIntentData hmem with ⟨tl, h⟩
    rw [h] at hpre
    simp only [List.cons_append, List.cons_prefix_cons, Seg.name.injEq] at hpre
    exact Or.inr (Or.inr (Or.inr (Or.inr (Or.inr (Or.inr (Or.inr (Or.inr (Or.inr
      (Or.inr (Or.inl ⟨by simp [hd], hpre.1⟩))))))))))
  · rw [h] at hpre
    simp only [List.cons_prefix_cons, Seg.name.injEq] at hpre
    exact Or.inr (Or.inr (Or.inr (Or.inr (Or.inr (Or.inr (Or.inr (Or.inr (Or.inr
      (Or.inr (Or.inr ⟨by simp [hv], hpre.1⟩))))))))))

/-!
Provenance lemmas: a key whose path enters a present nested struct was emitted
by that struct's encoder.
-/

theorem session_pid_provenance {s : CreateCheckoutSession}
    {d : CheckoutPaymentIntentData} {rest : WirePath} {e : WirePath × String}
    (hd : s.payment_intent_data = some d) (he : e ∈ encodeCreateCheckoutSession s)
    (hpre : Seg.name "payment_intent_data" :: rest <+: e.1) :
    e ∈ encodeCheckoutPaymentIntentData [Seg.name "payment_intent_data"] d := by
  rcases shape_encodeCreateCheckoutSession he with
    h | ⟨hne, k, h⟩ | h | ⟨⟨v, hv⟩, h⟩ | ⟨⟨v, hv⟩, h⟩ | ⟨⟨v, hv⟩, h⟩ | ⟨⟨v, hv⟩, h⟩ |
    ⟨items, hitems, j, hj, hmem⟩ | ⟨⟨v, hv⟩, h⟩ | ⟨⟨v, hv⟩, h⟩ | ⟨d', hd', hmem⟩ |
    ⟨⟨v, hv⟩, h⟩
  · rw [h] at hpre; simp [List.cons_prefix_cons] at hpre
  · rw [h] at hpre; simp [List.cons_prefix_cons] at hpre
  · rw [h] at hpre; simp [List.cons_prefix_cons] at hpre
  · rw [h] at hpre; simp [List.cons_prefix_cons] at hpre
  · rw [h] at hpre; simp [List.cons_prefix_cons] at hpre
  · rw [h] at hpre; simp [List.cons_prefix_cons] at hpre
  · rw [h] at hpre; simp [List.cons_prefix_cons] at hpre
  · rcases keyExt_encodeCheckoutSessionLineItem hmem with ⟨tl, h⟩
    rw [h] at hpre; simp [List.cons_prefix_cons] at hpre
  · rw [h] at hpre; simp [List.cons_prefix_cons] at hpre
  · rw [h] at hpre; simp [List.cons_prefix_cons] at hpre
  · rw [hd] at hd'
    cases hd'
    exact hmem
  · rw [h] at hpre; simp [List.cons_prefix_cons] at hpre

theorem session_li_provenance {s : CreateCheckoutSession}
    {items : List CheckoutSessionLineItem} {j : Nat} {rest : WirePath}
    {e : WirePath × String}
    (hitems : s.line_items = some items) (he : e ∈ encodeCreateCheckoutSession s)
    (hpre : Seg.name "line_items" :: Seg.idx j :: rest <+: e.1) :
    ∃ hj : j < items.length,
      e ∈ encodeCheckoutSessionLineItem [Seg.name "line_items", Seg.idx j]
        (items.get ⟨j, hj⟩) := by
  rcases shape_encodeCreateCheckoutSession he with
    h | ⟨hne, k, h⟩ | h | ⟨⟨v, hv⟩, h⟩ | ⟨⟨v, hv⟩, h⟩ | ⟨⟨v, hv⟩, h⟩ | ⟨⟨v, hv⟩, h⟩ |
    ⟨items', hitems', j', hj', hmem⟩ | ⟨⟨v, hv⟩, h⟩ | ⟨⟨v, hv⟩, h⟩ | ⟨d', hd', hmem⟩ |
    ⟨⟨v, hv⟩, h⟩
  · rw [h] at hpre; simp [List.cons_prefix_cons] at hpre
  · rw [h] at hpre; simp [List.cons_prefix_cons] at hpre
  · rw [h] at hpre; simp [List.cons_prefix_cons] at hpre
  · rw [h] at hpre; simp [List.cons_prefix_cons] at hpre
  · rw [h] at hpre; simp [List.cons_prefix_cons] at hpre
  · rw [h] at hpre; simp [List.cons_prefix_cons] at hpre
  · rw [h] at hpre; simp [List.cons_prefix_cons] at hpre
  · rw [hitems] at hitems'
    cases hitems'
    rcases keyExt_encodeCheckoutSessionLineItem hmem with ⟨tl, h⟩
    rw [h] at hpre
    simp only [List.cons_append, List.nil_append, List.cons_prefix_cons, Seg.idx.injEq,
      true_and] at hpre
    rcases hpre with ⟨hjj, _⟩
    subst hjj
    exact ⟨hj', hmem⟩
  · rw [h] at hpre; simp [List.cons_prefix_cons] at hpre
  · rw [h] at hpre; simp [List.cons_prefix_cons] at hpre
  · rcases keyExt_encodeCheckoutPaymentIntentData hmem with ⟨tl, h⟩
    rw [h] at hpre; simp [List.cons_prefix_cons] at hpre
  · rw [h] at hpre; simp [List.cons_prefix_cons] at hpre

theorem pid_td_provenance {pre : WirePath} {d : CheckoutPaymentIntentData}
    {t : CheckoutTransferData} {rest : WirePath} {e : WirePath × String}
    (ht : d.transfer_data = some t) (he : e ∈ encodeCheckoutPaymentIntentData pre d)
    (hpre : pre ++ (Seg.name "transfer_data" :: rest) <+: e.1) :
    e ∈ encodeCheckoutTransferData (pre ++ [Seg.name "transfer_data"]) t := by
  rcases shape_encodeCheckoutPaymentIntentData he with
    ⟨⟨a, ha⟩, h⟩ | ⟨⟨v, hv⟩, h⟩ | ⟨l, hl, k, h⟩ | ⟨⟨v, hv⟩, h⟩ | ⟨⟨v, hv⟩, h⟩ |
    ⟨⟨v, hv⟩, h⟩ | ⟨⟨v, hv⟩, h⟩ | ⟨t', ht', hm⟩ | ⟨⟨v, hv⟩, h⟩
  · rw [h, List.prefix_append_right_inj] at hpre
    simp [List.cons_prefix_cons] at hpre
  · rw [h, List.prefix_append_right_inj] at hpre
    simp [List.cons_prefix_cons] at hpre
  · rw [h, List.prefix_append_right_inj] at hpre
    simp [List.cons_prefix_cons] at hpre
  · rw [h, List.prefix_append_right_inj] at hpre
    simp [List.cons_prefix_cons] at hpre
  · rw [h, List.prefix_append_right_inj] at hpre
    simp [List.cons_prefix_cons] at hpre
  · rw [h, List.prefix_append_right_inj] at hpre
    simp [List.cons_prefix_cons] at hpre
  · rw [h, List.prefix_append_right_inj] at hpre
    simp [List.cons_prefix_cons] at hpre
  · rw [ht] at ht'
    cases ht'
    exact hm
  · rw [h, List.prefix_append_right_inj] at hpre
    simp [List.cons_prefix_cons] at hpre

/-- C1: for every parameter value and every optional field of it that is left
unset (None), the encoded flat mapping contains no key corresponding to that
field, at any nesting depth. -/
theorem optional_field_omission (s : CreateCheckoutSession) :
    (s.client_reference_id = none →
      ¬ hasKeyAt (encodeCreateCheckoutSession s) [Seg.name "client_reference_id"]) ∧
    (s.customer = none →
      ¬ hasKeyAt (encodeCreateCheckoutSession s) [Seg.name "customer"]) ∧
    (s.customer_email = none →
      ¬ hasKeyAt (encodeCreateCheckoutSession s) [Seg.name "customer_email"]) ∧
    (s.billing_address_collection = none →
      ¬ hasKeyAt (encodeCreateCheckoutSession s) [Seg.name "billing_address_collection"]) ∧
    (s.line_items = none →
      ¬ hasKeyAt (encodeCreateCheckoutSession s) [Seg.name "line_items"]) ∧
    (s.locale = none →
      ¬ hasKeyAt (encodeCreateCheckoutSession s) [Seg.name "locale"]) ∧
    (s.mode = none →
      ¬ hasKeyAt (encodeCreateCheckoutSession s) [Seg.name "mode"]) ∧
    (s.payment_intent_data = none →
      ¬ hasKeyAt (encodeCreateCheckoutSession s) [Seg.name "payment_intent_data"]) ∧
    (s.submit_type = none →
      ¬ hasKeyAt (encodeCreateCheckoutSession s) [Seg.name "submit_type"]) ∧
    (∀ d, s.payment_intent_data = some d →
      (d.application_fee_amount = none → ¬ hasKeyAt (encodeCreateCheckoutSession s)
        [Seg.name "payment_intent_data", Seg.name "application_fee_amount"]) ∧
      (d.description = none → ¬ hasKeyAt (encodeCreateCheckoutSession s)
        [Seg.name "payment_intent_data", Seg.name "description"]) ∧
      (d.metadata = none → ¬ hasKeyAt (encodeCreateCheckoutSession s)
        [Seg.name "payment_intent_data", Seg.name "metadata"]) ∧
      (d.on_behalf_of = none → ¬ hasKeyAt (encodeCreateCheckoutSession s)
        [Seg.name "payment_intent_data", Seg.name "on_behalf_of"]) ∧
      (d.receipt_email = none → ¬ hasKeyAt (encodeCreateCheckoutSession s)
        [Seg.name "payment_intent_data", Seg.name "receipt_email"]) ∧
      (d.statement_descriptor = none → ¬ hasKeyAt (encodeCreateCheckoutSession s)
        [Seg.name "payment_intent_data", Seg.name "statement_descriptor"]) ∧
      (d.statement_descriptor_suffix = none → ¬ hasKeyAt (encodeCreateCheckoutSession s)
        [Seg.name "payment_intent_data", Seg.name "statement_descriptor_suffix"]) ∧
      (d.transfer_data = none → ¬ hasKeyAt (encodeCreateCheckoutSession s)
        [Seg.name "payment_intent_data", Seg.name "transfer_data"]) ∧
      (d.transfer_group = none → ¬ hasKeyAt (encodeCreateCheckoutSession s)
        [Seg.name "payment_intent_data", Seg.name "transfer_group"]) ∧
      (∀ t, d.transfer_data = some t → t.amount = none →
        ¬ hasKeyAt (encodeCreateCheckoutSession s)
          [Seg.name "payment_intent_data", Seg.name "transfer_data", Seg.name "amount"])) ∧
    (∀ items, s.line_items = some items → ∀ j, ∀ hj : j < items.length,
      ((items.get ⟨j, hj⟩).description = none →
        ¬ hasKeyAt (encodeCreateCheckoutSession s)
          [Seg.name "line_items", Seg.idx j, Seg.name "description"]) ∧
      ((items.get ⟨j, hj⟩).images = none →
        ¬ hasKeyAt (encodeCreateCheckoutSession s)
          [Seg.name "line_items", Seg.idx j, Seg.name "images"])) := by
  refine ⟨?_, ?_, ?_, ?_, ?_, ?_, ?_, ?_, ?_, ?_, ?_⟩
  · intro h0 hk
    rcases session_origin hk with h | h | h | h | h | h | h | h | h | h | h | h <;> simp_all
  · intro h0 hk
    rcases session_origin hk with h | h | h | h | h | h | h | h | h | h | h | h <;> simp_all
  · intro h0 hk
    rcases session_origin hk with h | h | h | h | h | h | h | h | h | h | h | h <;> simp_all
  · intro h0 hk
    rcases session_origin hk with h | h | h | h | h | h | h | h | h | h | h | h <;> simp_all
  · intro h0 hk
    rcases session_origin hk with h | h | h | h | h | h | h | h | h | h | h | h <;> simp_all
  · intro h0 hk
    rcases session_origin hk with h | h | h | h | h | h | h | h | h | h | h | h <;> simp_all
  · intro h0 hk
    rcases session_origin hk with h | h | h | h | h | h | h | h | h | h | h | h <;> simp_all
  · intro h0 hk
    rcases session_origin hk with h | h | h | h | h | h | h | h | h | h | h | h <;> simp_all
  · intro h0 hk
    rcases session_origin hk with h | h | h | h | h | h | h | h | h | h | h | h <;> simp_all
  · intro d hd
    refine ⟨?_, ?_, ?_, ?_, ?_, ?_, ?_, ?_, ?_, ?_⟩
    · intro h0 hk
      rcases hk with ⟨e, he, hpre⟩
      have hm := session_pid_provenance hd he hpre
      have horig := @pid_origin [Seg.name "payment_intent_data"] _ _ [] _ hm (by exact hpre)
      rcases horig with h | h | h | h | h | h | h | h | h <;> simp_all
    · intro h0 hk
      rcases hk with ⟨e, he, hpre⟩
      have hm := session_pid_provenance hd he hpre
      have horig := @pid_origin [Seg.name "payment_intent_data"] _ _ [] _ hm (by exact hpre)
      rcases horig with h | h | h | h | h | h | h | h | h <;> simp_all
    · intro h0 hk
      rcases hk with ⟨e, he, hpre⟩
      have hm := session_pid_provenance hd he hpre
      have horig := @pid_origin [Seg.name "payment_intent_data"] _ _ [] _ hm (by exact hpre)
      rcases horig with h | h | h | h | h | h | h | h | h <;> simp_all
    · intro h0 hk
      rcases hk with ⟨e, he, hpre⟩
      have hm := session_pid_provenance hd he hpre
      have horig := @pid_origin [Seg.name "payment_intent_data"] _ _ [] _ hm (by exact hpre)
      rcases horig with h | h | h | h | h | h | h | h | h <;> simp_all
    · intro h0 hk
      rcases hk with ⟨e, he, hpre⟩
      have hm := session_pid_provenance hd he hpre
      have horig := @pid_origin [Seg.name "payment_intent_data"] _ _ [] _ hm (by exact hpre)
      rcases horig with h | h | h | h | h | h | h | h | h <;> simp_all
    · intro h0 hk
      rcases hk with ⟨e, he, hpre⟩
      have hm := session_pid_provenance hd he hpre
      have horig := @pid_origin [Seg.name "payment_intent_data"] _ _ [] _ hm (by exact hpre)
      rcases horig with h | h | h | h | h | h | h | h | h <;> simp_all
    · intro h0 hk
      rcases hk with ⟨e, he, hpre⟩
      have hm := session_pid_provenance hd he hpre
      have horig := @pid_origin [Seg.name "payment_intent_data"] _ _ [] _ hm (by exact hpre)
      rcases horig with h | h | h | h | h | h | h | h | h <;> simp_all
    · intro h0 hk
      rcases hk with ⟨e, he, hpre⟩
      have hm := session_pid_provenance hd he hpre
      have horig := @pid_origin [Seg.name "payment_intent_data"] _ _ [] _ hm (by exact hpre)
      rcases horig with h | h | h | h | h | h | h | h | h <;> simp_all
    · intro h0 hk
      rcases hk with ⟨e, he, hpre⟩
      have hm := session_pid_provenance hd he hpre
      have horig := @pid_origin [Seg.name "payment_intent_data"] _ _ [] _ hm (by exact hpre)
      rcases horig with h | h | h | h | h | h | h | h | h <;> simp_all
    · intro t ht h0 hk
      rcases hk with ⟨e, he, hpre⟩
      have hm := session_pid_provenance hd he hpre
      have hmt := @pid_td_provenance [Seg.name "payment_intent_data"] _ _ [Seg.name "amount"] _
        ht hm (by exact hpre)
      have horig := @td_origin [Seg.name "payment_intent_data", Seg.name "transfer_data"] _ _ [] _
        hmt (by exact hpre)
      rcases horig with h | h <;> simp_all
  · intro items hitems j hj
    constructor
    · intro h0 hk
      rcases hk with ⟨e, he, hpre⟩
      rcases session_li_provenance hitems he hpre with ⟨hj', hm⟩
      have h0' : (items.get ⟨j, hj'⟩).description = none := h0
      have horig := @li_origin [Seg.name "line_items", Seg.idx j] _ _ [] _ hm (by exact hpre)
      rcases horig with h | h | h | h | h | h <;> simp_all
    · intro h0 hk
      rcases hk with ⟨e, he, hpre⟩
      rcases session_li_provenance hitems he hpre with ⟨hj', hm⟩
      have h0' : (items.get ⟨j, hj'⟩).images = none := h0
      have horig := @li_origin [Seg.name "line_items", Seg.idx j] _ _ [] _ hm (by exact hpre)
      rcases horig with h | h | h | h | h | h <;> simp_all

/-- Boolean test selecting the entries of the i-th line-item index group. -/
def liTest (i : Nat) (e : WirePath × String) : Bool :=
  isPre [Seg.name "line_items", Seg.idx i] e.1

/-- The i-th line-item index group of a flat mapping: the entries whose key
lies under line_items[i], in emission order. -/
def lineItemGroup (m : FlatMap) (i : Nat) : FlatMap :=
  m.filter (liTest i)

theorem filter_liTest_reqField (i : Nat) (n v : String) :
    (reqField [] n v).filter (liTest i) = [] := by
  rw [List.filter_eq_nil_iff]
  intro e he
  rw [mem_reqField] at he
  subst he
  simp [liTest, isPre]

theorem filter_liTest_optField (i : Nat) (n : String) (o : Option String) :
    (optField [] n o).filter (liTest i) = [] := by
  rw [List.filter_eq_nil_iff]
  intro e he
  rw [mem_optField] at he
  rcases he with ⟨v, hv, rfl⟩
  simp [liTest, isPre]

theorem filter_liTest_pmt (i : Nat) (l : List String) :
    (seqScalar [] "payment_method_types" l).filter (liTest i) = [] := by
  rw [List.filter_eq_nil_iff]
  intro e he
  simp only [seqScalar] at he
  rcases mem_seqScalarAux.mp he with ⟨j, hj, rfl⟩
  simp [liTest, isPre]

theorem filter_liTest_pid (i : Nat) (o : Option CheckoutPaymentIntentData) :
    (optNested [] "payment_intent_data" encodeCheckoutPaymentIntentData o).filter
      (liTest i) = [] := by
  cases o with
  | none => simp [optNested]
  | some d =>
    simp only [optNested]
    rw [List.filter_eq_nil_iff]
    intro e he
    rcases keyExt_encodeCheckoutPaymentIntentData he with ⟨tl, hkey⟩
    simp [liTest, isPre, hkey]

theorem lineItemGroup_session {s : CreateCheckoutSession}
    {items : List CheckoutSessionLineItem} (hitems : s.line_items = some items)
    (i : Nat) :
    lineItemGroup (encodeCreateCheckoutSession s) i =
      (seqNested [] "line_items" encodeCheckoutSessionLineItem items).filter (liTest i) := by
  unfold lineItemGroup encodeCreateCheckoutSession
  rw [hitems]
  simp only [optSeqNested, List.filter_append, filter_liTest_reqField,
    filter_liTest_optField, filter_liTest_pmt, filter_liTest_pid,
    List.nil_append, List.append_nil]

theorem filter_liTest_chunk (li : CheckoutSessionLineItem) (i j : Nat) :
    (encodeCheckoutSessionLineItem [Seg.name "line_items", Seg.idx j] li).filter
      (liTest i) =
      if i = j then encodeCheckoutSessionLineItem [Seg.name "line_items", Seg.idx j] li
      else [] := by
  by_cases h : i = j
  · rw [if_pos h]
    subst h
    rw [List.filter_eq_self]
    intro e he
    rcases keyExt_encodeCheckoutSessionLineItem he with ⟨tl, hkey⟩
    simp [liTest, isPre, hkey]
  · rw [if_neg h]
    rw [List.filter_eq_nil_iff]
    intro e he
    rcases keyExt_encodeCheckoutSessionLineItem he with ⟨tl, hkey⟩
    simp [liTest, isPre, hkey, h]

theorem group_seqNestedAux_lt :
    ∀ (l : List CheckoutSessionLineItem) (b i : Nat), i < b →
      (seqNestedAux [] "line_items" encodeCheckoutSessionLineItem b l).filter
        (liTest i) = [] := by
  intro l
  induction l with
  | nil => intro b i h; simp [seqNestedAux]
  | cons x xs ih =>
    intro b i h
    simp only [seqNestedAux, List.filter_append, List.nil_append]
    rw [filter_liTest_chunk, if_neg (by omega), ih (b + 1) i (by omega)]
    simp

theorem group_seqNestedAux_ge :
    ∀ (l : List CheckoutSessionLineItem) (b i : Nat), b + l.length ≤ i →
      (seqNestedAux [] "line_items" encodeCheckoutSessionLineItem b l).filter
        (liTest i) = [] := by
  intro l
  induction l with
  | nil => intro b i h; simp [seqNestedAux]
  | cons x xs ih =>
    intro b i h
    simp only [List.length_cons] at h
    simp only [seqNestedAux, List.filter_append, List.nil_append]
    rw [filter_liTest_chunk, if_neg (by omega), ih (b + 1) i (by omega)]
    simp

theorem group_seqNestedAux_hit :
    ∀ (l : List CheckoutSessionLineItem) (b j : Nat) (hj : j < l.length),
      (seqNestedAux [] "line_items" encodeCheckoutSessionLineItem b l).filter
        (liTest (b + j)) =
        encodeCheckoutSessionLineItem [Seg.name "line_items", Seg.idx (b + j)]
          (l.get ⟨j, hj⟩) := by
  intro l
  induction l with
  | nil => intro b j hj; simp at hj
  | cons x xs ih =>
    intro b j hj
    simp only [seqNestedAux, List.filter_append, List.nil_append]
    cases j with
    | zero =>
      rw [filter_liTest_chunk, if_pos (by omega),
        group_seqNestedAux_lt xs (b + 1) (b + 0) (by omega)]
      simp
    | succ j =>
      rw [filter_liTest_chunk, if_neg (by omega)]
      have harith : b + (j + 1) = (b + 1) + j := by omega
      rw [harith, ih (b + 1) j (by simp only [List.length_cons] at hj; omega)]
      simp [List.get_cons_succ]

theorem seqScalarAux_shift (pre : WirePath) (n : String) :
    ∀ (l : List String) (i : Nat),
      seqScalarAux pre n i l = (seqScalarAux [] n i l).map (fun e => (pre ++ e.1, e.2)) := by
  intro l
  induction l with
  | nil => intro i; simp [seqScalarAux]
  | cons v vs ih =>
    intro i
    simp [seqScalarAux, ih (i + 1)]

theorem encodeLI_shift (pre : WirePath) (li : CheckoutSessionLineItem) :
    encodeCheckoutSessionLineItem pre li =
      (encodeCheckoutSessionLineItem [] li).map (fun e => (pre ++ e.1, e.2)) := by
  unfold encodeCheckoutSessionLineItem
  cases li.description <;> cases li.images <;>
    simp only [reqField, optField, optSeqScalar, seqScalar, List.map_append, List.map_cons,
      List.map_nil, List.nil_append, List.append_nil] <;>
    try rw [seqScalarAux_shift pre "images"]

/-- Drop the two leading path segments of every key (used to compare index
groups independently of their position index). -/
def stripTwo (m : FlatMap) : FlatMap :=
  m.map (fun e => (e.1.drop 2, e.2))

theorem stripTwo_chunk (a b : Seg) (li : CheckoutSessionLineItem) :
    stripTwo (encodeCheckoutSessionLineItem [a, b] li) =
      encodeCheckoutSessionLineItem [] li := by
  rw [encodeLI_shift [a, b] li]
  unfold stripTwo
  rw [List.map_map]
  have hfun : ∀ e ∈ encodeCheckoutSessionLineItem [] li,
      ((fun e : WirePath × String => (e.1.drop 2, e.2)) ∘
        (fun e : WirePath × String => (([a, b] : WirePath) ++ e.1, e.2))) e = id e := by
    intro e _
    cases e
    rfl
  rw [List.map_congr_left hfun, List.map_id]

theorem encodeLI_ne_nil (pre : WirePath) (li : CheckoutSessionLineItem) :
    encodeCheckoutSessionLineItem pre li ≠ [] := by
  unfold encodeCheckoutSessionLineItem reqField
  simp

/-- C4: for a list of N line items, encoding produces exactly N index groups,
giving group i the encoding of the i-th input item (0-based, in input order)
and nothing to any index at or beyond N; and reordering the input sequence by
a permutation reorders the index groups identically (group i of the reordered
encoding carries, up to its position index, exactly what group (sigma i) of
the original carried). -/
theorem sequence_indexing (s : CreateCheckoutSession)
    (items : List CheckoutSessionLineItem) (hitems : s.line_items = some items) :
    (∀ i, ∀ hi : i < items.length,
      lineItemGroup (encodeCreateCheckoutSession s) i =
        encodeCheckoutSessionLineItem [Seg.name "line_items", Seg.idx i]
          (items.get ⟨i, hi⟩) ∧
      lineItemGroup (encodeCreateCheckoutSession s) i ≠ []) ∧
    (∀ i, items.length ≤ i → lineItemGroup (encodeCreateCheckoutSession s) i = []) ∧
    (∀ (s' : CreateCheckoutSession) (σ : Equiv.Perm (Fin items.length)),
      s'.line_items = some (List.ofFn (fun k => items.get (σ k))) →
      ∀ i : Fin items.length,
        stripTwo (lineItemGroup (encodeCreateCheckoutSession s') i.val) =
          stripTwo (lineItemGroup (encodeCreateCheckoutSession s) (σ i).val)) := by
  refine ⟨?_, ?_, ?_⟩
  · intro i hi
    have h1 : lineItemGroup (encodeCreateCheckoutSession s) i =
        encodeCheckoutSessionLineItem [Seg.name "line_items", Seg.idx i]
          (items.get ⟨i, hi⟩) := by
      rw [lineItemGroup_session hitems]
      simp only [seqNested]
      have h := group_seqNestedAux_hit items 0 i hi
      simpa using h
    exact ⟨h1, by rw [h1]; exact encodeLI_ne_nil _ _⟩
  · intro i hile
    rw [lineItemGroup_session hitems]
    simp only [seqNested]
    exact group_seqNestedAux_ge items 0 i (by omega)
  · intro s' σ hs' i
    have hlen : (i : Nat) < (List.ofFn (fun k => items.get (σ k))).length := by
      rw [List.length_ofFn]
      exact i.isLt
    have h1 : lineItemGroup (encodeCreateCheckoutSession s') i.val =
        encodeCheckoutSessionLineItem [Seg.name "line_items", Seg.idx i.val]
          ((List.ofFn (fun k => items.get (σ k))).get ⟨i.val, hlen⟩) := by
      rw [lineItemGroup_session hs']
      simp only [seqNested]
      have h := group_seqNestedAux_hit _ 0 i.val hlen
      simpa using h
    have h2 : lineItemGroup (encodeCreateCheckoutSession s) (σ i).val =
        encodeCheckoutSessionLineItem [Seg.name "line_items", Seg.idx (σ i).val]
          (items.get ⟨(σ i).val, (σ i).isLt⟩) := by
      rw [lineItemGroup_session hitems]
      simp only [seqNested]
      have h := group_seqNestedAux_hit items 0 (σ i).val (σ i).isLt
      simpa using h
    rw [h1, h2, stripTwo_chunk, stripTwo_chunk]
    congr 1
    rw [List.get_ofFn]
    congr 1

/-- A minimal well-formed parameter value: both URLs set, one payment method,
every optional field unset. -/
def exampleSession : CreateCheckoutSession :=
  { cancel_url := "https://example.com/cancel"
    payment_method_types := ["card"]
    success_url := "https://example.com/success"
    client_reference_id := none
    customer := none
    customer_email := none
    billing_address_collection := none
    line_items := none
    locale := none
    mode := none
    payment_intent_data := none
    submit_type := none }

theorem optional_field_omission_witness :
    (¬ hasKeyAt (encodeCreateCheckoutSession exampleSession) [Seg.name "customer"]) ∧
    (¬ hasKeyAt (encodeCreateCheckoutSession exampleSession)
      [Seg.name "payment_intent_data"]) :=
  ⟨(optional_field_omission exampleSession).2.1 rfl,
   (optional_field_omission exampleSession).2.2.2.2.2.2.2.1 rfl⟩

/-- A parameter value whose mandatory payment_method_types collection is
empty: nothing in the source stops its construction. -/
def emptyPMTSession : CreateCheckoutSession :=
  { cancel_url := "https://shop.test/cancel"
    payment_method_types := []
    success_url := "https://shop.test/success"
    client_reference_id := none
    customer := none
    customer_email := none
    billing_address_collection := none
    line_items := none
    locale := none
    mode := none
    payment_intent_data := none
    submit_type := none }

/-- C2 counterexample: a CreateCheckoutSession with empty payment_method_types
is constructible (the struct has public fields and no validating constructor)
and the encoder accepts it, producing a flat mapping; construction does not
fail and the value does reach the encoder. -/
theorem empty_pmt_reaches_encoder :
    emptyPMTSession.payment_method_types = [] ∧
    encodeCreateCheckoutSession emptyPMTSession =
      [([Seg.name "cancel_url"], "https://shop.test/cancel"),
       ([Seg.name "success_url"], "https://shop.test/success")] := by
  exact ⟨rfl, rfl⟩

/-- C2 amended: no construction-time validation of payment_method_types
exists: a parameter value with any list, the empty one included, is
constructible, and encoding an empty collection simply emits no
payment_method_types key. -/
theorem empty_pmt_no_validation :
    (∀ pmt : List String, ∃ s : CreateCheckoutSession, s.payment_method_types = pmt) ∧
    (∀ s : CreateCheckoutSession, s.payment_method_types = [] →
      ¬ hasKeyAt (encodeCreateCheckoutSession s) [Seg.name "payment_method_types"]) := by
  constructor
  · intro pmt
    exact ⟨⟨"", pmt, "", none, none, none, none, none, none, none, none, none⟩, rfl⟩
  · intro s h0 hk
    rcases session_origin hk with h | h | h | h | h | h | h | h | h | h | h | h <;> simp_all

theorem empty_pmt_no_validation_witness :
    ¬ hasKeyAt (encodeCreateCheckoutSession emptyPMTSession)
      [Seg.name "payment_method_types"] :=
  empty_pmt_no_validation.2 emptyPMTSession rfl

/-- A line item violating both claimed invariants: quantity 0 (u64 allows it)
and negative amount (i64 allows it). -/
def badLineItem : CheckoutSessionLineItem :=
  { amount := -5
    currency := Currency.usd
    name := "not a sale"
    quantity := 0
    description := none
    images := none }

/-- C3 counterexample: a line item with quantity = 0 and amount = -5 is
constructible, so the invariants quantity >= 1 and amount >= 0 do not hold of
every constructible value. -/
theorem line_item_invariant_counterexample :
    badLineItem.quantity = 0 ∧ badLineItem.amount < 0 := by
  exact ⟨rfl, by decide⟩

/-- C3 amended: the field types alone enforce only non-negativity of quantity
(u64); neither quantity >= 1 nor amount >= 0 is enforced: a line item with
quantity = 0 and negative amount is constructible. -/
theorem line_item_type_level_invariants :
    (∀ li : CheckoutSessionLineItem, 0 ≤ (li.quantity : Int)) ∧
    (∃ li : CheckoutSessionLineItem, li.quantity = 0 ∧ li.amount < 0) := by
  constructor
  · intro li
    exact Int.natCast_nonneg li.quantity
  · exact ⟨badLineItem, rfl, by decide⟩

/-- First example line item (mandatory fields only). -/
def exampleItemA : CheckoutSessionLineItem :=
  { amount := 500
    currency := Currency.usd
    name := "Widget"
    quantity := 2
    description := none
    images := none }

/-- Second example line item (every optional field set). -/
def exampleItemB : CheckoutSessionLineItem :=
  { amount := 1200
    currency := Currency.eur
    name := "Gadget"
    quantity := 1
    description := some "second item"
    images := some ["https://example.com/g.png"] }

/-- Example session carrying two line items. -/
def exampleSessionLI : CreateCheckoutSession :=
  { exampleSession with line_items := some [exampleItemA, exampleItemB] }

theorem sequence_indexing_witness :
    lineItemGroup (encodeCreateCheckoutSession exampleSessionLI) 0 =
      encodeCheckoutSessionLineItem [Seg.name "line_items", Seg.idx 0] exampleItemA ∧
    lineItemGroup (encodeCreateCheckoutSession exampleSessionLI) 2 = [] :=
  ⟨((sequence_indexing exampleSessionLI [exampleItemA, exampleItemB] rfl).1 0
      (by decide)).1,
   (sequence_indexing exampleSessionLI [exampleItemA, exampleItemB] rfl).2.1 2
      (by decide)⟩

/-- C5: an optional sequence field that is present but empty (line_items or
images set to Some of the empty list) contributes no entry. -/
theorem empty_sequence_omission :
    (∀ s : CreateCheckoutSession, s.line_items = some [] →
      ¬ hasKeyAt (encodeCreateCheckoutSession s) [Seg.name "line_items"]) ∧
    (∀ (pre : WirePath) (li : CheckoutSessionLineItem), li.images = some [] →
      ∀ e ∈ encodeCheckoutSessionLineItem pre li,
        ¬ (pre ++ [Seg.name "images"]) <+: e.1) := by
  constructor
  · intro s h0 hk
    rcases session_origin hk with h | h | h | h | h | h | h | h | h | h | h | h <;> simp_all
  · intro pre li h0 e he hpre
    have horig := @li_origin pre _ _ [] _ he (by exact hpre)
    rcases horig with h | h | h | h | h | h <;> simp_all

/-- Example session whose line_items is present but empty. -/
def emptyLISession : CreateCheckoutSession :=
  { exampleSession with line_items := some [] }

theorem empty_sequence_omission_witness :
    ¬ hasKeyAt (encodeCreateCheckoutSession emptyLISession) [Seg.name "line_items"] :=
  empty_sequence_omission.1 emptyLISession rfl

/-- C6: encoding is total and deterministic (the encoder is a pure function,
so encoding the same constructed value twice yields the identical flat
mapping), and the produced mapping does not depend on the iteration-order
artifact of the free-form metadata map: permuting the metadata entries merely
permutes the flat mapping, leaving it equal as a key-value mapping, while the
(semantically meaningful) order of every other component is untouched. -/
theorem encoding_deterministic :
    (∀ s : CreateCheckoutSession,
      encodeCreateCheckoutSession s = encodeCreateCheckoutSession s) ∧
    (∀ (pre : WirePath) (d : CheckoutPaymentIntentData)
        (l₁ l₂ : List (String × String)), d.metadata = some l₁ → l₁.Perm l₂ →
      (encodeCheckoutPaymentIntentData pre d).Perm
        (encodeCheckoutPaymentIntentData pre { d with metadata := some l₂ })) := by
  constructor
  · intro s
    rfl
  · intro pre d l₁ l₂ hmeta hperm
    have hM : (encodeMetadata (pre ++ [Seg.name "metadata"]) l₁).Perm
        (encodeMetadata (pre ++ [Seg.name "metadata"]) l₂) :=
      hperm.map _
    unfold encodeCheckoutPaymentIntentData
    rw [hmeta, show ({ d with metadata := some l₂ } :
      CheckoutPaymentIntentData).metadata = some l₂ from rfl]
    simp only [optNested]
    exact ((((((((List.Perm.refl _).append (List.Perm.refl _)).append hM).append
      (List.Perm.refl _)).append (List.Perm.refl _)).append (List.Perm.refl _)).append
      (List.Perm.refl _)).append (List.Perm.refl _)).append (List.Perm.refl _)

/-- Example metadata iteration sequence and a reordering of it. -/
def exampleMetadataA : List (String × String) :=
  [("order", "42"), ("tier", "gold")]

/-- The same metadata mapping iterated in the other order. -/
def exampleMetadataB : List (String × String) :=
  [("tier", "gold"), ("order", "42")]

/-- Example payment-intent data carrying the metadata mapping. -/
def examplePID : CheckoutPaymentIntentData :=
  { application_fee_amount := some 25
    description := none
    metadata := some exampleMetadataA
    on_behalf_of := none
    receipt_email := none
    statement_descriptor := none
    statement_descriptor_suffix := none
    transfer_data := none
    transfer_group := none }

theorem encoding_deterministic_witness :
    (encodeCheckoutPaymentIntentData [Seg.name "payment_intent_data"] examplePID).Perm
      (encodeCheckoutPaymentIntentData [Seg.name "payment_intent_data"]
        { examplePID with metadata := some exampleMetadataB }) :=
  encoding_deterministic.2 [Seg.name "payment_intent_data"] examplePID
    exampleMetadataA exampleMetadataB rfl (List.Perm.swap _ _ _)

/-- Example session with an out-of-set billing-address-collection mode. -/
def bogusBillingSession : CreateCheckoutSession :=
  { exampleSession with billing_address_collection := some "bogus-mode" }

/-- C7 counterexample: billing_address_collection is open text with no check
at construction or at encoding: the out-of-set value bogus-mode is encoded
verbatim into the flat mapping handed to the transport. -/
theorem open_text_counterexample :
    bogusBillingSession.billing_address_collection = some "bogus-mode" ∧
    ([Seg.name "billing_address_collection"], "bogus-mode") ∈
      encodeCreateCheckoutSession bogusBillingSession := by
  exact ⟨rfl, by decide⟩

/-- C7 amended: the fields represented as true enumerations (session mode,
submit type) can only carry tokens of their closed sets, but
billing_address_collection (and the payment-method-type strings) are open
text: any set value is encoded verbatim, with no failure at construction or
encoding. -/
theorem closed_set_fields_status :
    (∀ s : CreateCheckoutSession, ∀ v, s.billing_address_collection = some v →
      ([Seg.name "billing_address_collection"], v) ∈ encodeCreateCheckoutSession s) ∧
    (∀ m : CheckoutSessionMode,
      m.wire ∈ (["payment", "setup", "subscription"] : List String)) ∧
    (∀ t : CheckoutSessionSubmitType,
      t.wire ∈ (["auto", "book", "donate", "pay"] : List String)) := by
  refine ⟨?_, ?_, ?_⟩
  · intro s v hv
    unfold encodeCreateCheckoutSession
    rw [hv]
    simp [optField]
  · intro m
    cases m <;> simp [CheckoutSessionMode.wire]
  · intro t
    cases t <;> simp [CheckoutSessionSubmitType.wire]

theorem closed_set_fields_status_witness :
    ([Seg.name "billing_address_collection"], "bogus-mode") ∈
      encodeCreateCheckoutSession bogusBillingSession :=
  closed_set_fields_status.1 bogusBillingSession "bogus-mode" rfl

/-- Parameter-passing mode of one parameter in a Rust function signature. -/
inductive PassMode
  | byRef | byValue
deriving DecidableEq

/-- Passing mode of the client parameter in the declared signature of
CheckoutSession::create (fn create(client: &Client, ...)): a shared
reference. -/
def create_client_passing : PassMode := PassMode.byRef

/-- Passing mode of the params parameter in the declared signature of
CheckoutSession::create (..., params: CreateCheckoutSession): by value, so
ownership of the parameter value moves into the call. -/
def create_params_passing : PassMode := PassMode.byValue

/-- C8 counterexample: the entry point does not take the parameter value by
reference; the declared signature takes it by value, moving ownership away
from the caller. -/
theorem create_params_by_value_counterexample :
    create_params_passing ≠ PassMode.byRef := by
  decide

/-- C8 amended: CheckoutSession::create takes the transport handle by shared
reference but the parameter value by value; a caller wanting to inspect the
value afterwards must clone it first (the struct derives Clone). -/
theorem create_passing_modes :
    create_client_passing = PassMode.byRef ∧
      create_params_passing = PassMode.byValue := by
  exact ⟨rfl, rfl⟩

/-- Modelled from the spec: the transport collaborator (Client, post_form and
Response live in the config module, outside the visible sources). The client
is consumed purely as the capability of submitting a path plus a parameter
value as a form-encoded request and returning a response of an opaque type. -/
structure Client (ρ : Type) where
  post_form : String → CreateCheckoutSession → ρ

/-- CheckoutSession::create from the source: its whole body is
client.post_form("/checkout/sessions", params). -/
def CheckoutSession.create {ρ : Type} (client : Client ρ)
    (params : CreateCheckoutSession) : ρ :=
  client.post_form "/checkout/sessions" params

/-- C9: for every client and parameter value, create invokes the transport's
form-post operation against the fixed path /checkout/sessions and returns the
transport's result unchanged (whatever the response type); in particular an
error outcome is propagated as-is, with no retry, backoff or
interpretation. -/
theorem create_pass_through :
    (∀ (ρ : Type) (c : Client ρ) (p : CreateCheckoutSession),
      CheckoutSession.create c p = c.post_form "/checkout/sessions" p) ∧
    (∀ (ε α : Type) (c : Client (Except ε α)) (p : CreateCheckoutSession) (err : ε),
      c.post_form "/checkout/sessions" p = Except.error err →
      CheckoutSession.create c p = Except.error err) := by
  constructor
  · intro ρ c p
    rfl
  · intro ε α c p err h
    exact h

/-- A transport that always reports an error. -/
def exampleErrClient : Client (Except String Unit) :=
  { post_form := fun _ _ => Except.error "network down" }

theorem create_pass_through_witness :
    CheckoutSession.create exampleErrClient exampleSession =
      Except.error "network down" :=
  create_pass_through.2 String Unit exampleErrClient exampleSession "network down" rfl

/-- C10: application_fee_amount and the transfer amount are u64 fields
(embedded as Nat), so every constructible value carries a non-negative fee
and a non-negative transfer amount; a negative value is unrepresentable. -/
theorem unsigned_amounts_nonneg :
    (∀ (d : CheckoutPaymentIntentData) (a : Nat),
      d.application_fee_amount = some a → 0 ≤ (a : Int)) ∧
    (∀ (t : CheckoutTransferData) (a : Nat), t.amount = some a → 0 ≤ (a : Int)) := by
  constructor
  · intro d a _
    exact Int.natCast_nonneg a
  · intro t a _
    exact Int.natCast_nonneg a

/-- Example transfer data with a concrete amount. -/
def exampleTransfer : CheckoutTransferData :=
  { destination := "acct_123"
    amount := some 700 }

theorem unsigned_amounts_nonneg_witness :
    (0 : Int) ≤ ((700 : Nat) : Int) :=
  unsigned_amounts_nonneg.2 exampleTransfer 700 rfl
